import Mathlib

attribute [local semireducible] Rat.mul Rat.add Rat.sub Rat.inv Rat.ofScientific

/-
Verification of the booking and rating subsystem of the Group G ride-hailing
backend.  The definitions below are a shallow embedding of the handlers in
src/index.js and the mongoose schemas in src/models/Booking.js and
src/models/Driver.js; the Legacy namespace embeds the older server variant
(src/unnamed/part_002).  Document identifiers are modelled as Nat, numeric
fields as Rat, optional document fields as Option.
-/

namespace GroupG

/-- Lifecycle states of a booking: the status enum of src/models/Booking.js. -/
inductive BStatus where
  | pending
  | accepted
  | completed
  | cancelled
deriving DecidableEq

/-- A booking document, after the schema in src/models/Booking.js.  The fields
customer, pickupLocation, dropoffLocation, fare and distance are required by
the schema, so they are plain fields; driver, rating and review are optional. -/
structure Booking where
  id : Nat
  customer : Nat
  driver : Option Nat
  pickupLocation : String
  dropoffLocation : String
  fare : Rat
  distance : Rat
  status : BStatus
  rating : Option Rat
  review : Option String
  createdAt : Nat
deriving DecidableEq

/-- A driver document, restricted to the fields the rating subsystem touches
(src/models/Driver.js: averageRating default 0, totalRatings default 0). -/
structure Driver where
  id : Nat
  averageRating : Rat
  totalRatings : Nat
deriving DecidableEq

/-- The persistent state: the bookings and drivers collections. -/
structure Store where
  bookings : List Booking
  drivers : List Driver
deriving DecidableEq

/-- Write a saved booking document back into the collection under its id
(mongoose save persists the document keyed by its _id). -/
def updateById (l : List Booking) (b : Booking) : List Booking :=
  l.map (fun x => if x.id == b.id then b else x)

/-- findById over the bookings collection. -/
def findBooking (s : Store) (bid : Nat) : Option Booking :=
  s.bookings.find? (fun b => b.id == bid)

/-- The read phase of PATCH /bookings/:id/accept (src/index.js line 276):
Booking.findOne with the given id and status still pending. -/
def acceptRead (s : Store) (bid : Nat) : Option Booking :=
  s.bookings.find? (fun b => b.id == bid && b.status == BStatus.pending)

/-- The write phase of PATCH /bookings/:id/accept (src/index.js lines 278-284):
if the read found nothing, answer the 400 conflict message; otherwise set
driver and status on the document read earlier and save it. -/
def acceptWrite (s : Store) (r : Option Booking) (driverId : Nat) :
    Store × Except String Booking :=
  match r with
  | none => (s, Except.error "Booking not found or already taken by other driver")
  | some b =>
      let b2 := { b with driver := some driverId, status := BStatus.accepted }
      ({ s with bookings := updateById s.bookings b2 }, Except.ok b2)

/-- PATCH /bookings/:id/accept run without interference: the read phase
followed immediately by the write phase on the same store. -/
def acceptBooking (s : Store) (bid driverId : Nat) : Store × Except String Booking :=
  acceptWrite s (acceptRead s bid) driverId

/-- PATCH /bookings/:id/cancel (src/index.js lines 294-311): find the booking
by id and owning customer, then set status cancelled unconditionally; no other
field is touched. -/
def cancelBooking (s : Store) (bid custId : Nat) : Store × Except String Booking :=
  match s.bookings.find? (fun b => b.id == bid && b.customer == custId) with
  | none => (s, Except.error "Booking not found")
  | some b =>
      let b2 := { b with status := BStatus.cancelled }
      ({ s with bookings := updateById s.bookings b2 }, Except.ok b2)

/-- The request body of POST /bookings/:id/rate: rating and review, either of
which the client may omit. -/
structure RateReq where
  rating : Option Rat
  review : Option String
deriving DecidableEq

/-- Outcome of POST /bookings/:id/rate, one constructor per res.status call of
the handler: 404 booking not found, 400 ride not finished, 500 caught error,
200 with the submitted rating and the newly computed driver average. -/
inductive RateResult where
  | notFound
  | invalidState
  | serverError
  | ok (rating : Option Rat) (newDriverAverage : Rat)
deriving DecidableEq

/-- The HTTP status code each rate outcome is sent with (src/index.js lines
337, 340, 362, 369). -/
def rateHttpCode : RateResult → Nat
  | RateResult.notFound => 404
  | RateResult.invalidState => 400
  | RateResult.serverError => 500
  | RateResult.ok _ _ => 200

/-- Mongoose document validation run by booking save: rating, when present,
must lie in [1,5] (src/models/Booking.js lines 31-35, min 1 max 5).  The
required fields are present by construction of the Booking structure. -/
def bookingValid (b : Booking) : Bool :=
  match b.rating with
  | none => true
  | some r => decide (1 ≤ r) && decide (r ≤ 5)

/-- The bookings of a driver that carry a rating: the query Booking.find with
driver equal to the given reference and rating existing (src/index.js lines
349-352). -/
def ratedFor (l : List Booking) (d : Option Nat) : List Booking :=
  l.filter (fun x => x.driver == d && x.rating.isSome)

/-- Sum of the ratings of a list of bookings: the reduce at src/index.js line
354 (absent ratings never occur on the filtered list; getD 0 is a harmless
total default). -/
def sumRatings (l : List Booking) : Rat :=
  (l.map (fun b => b.rating.getD 0)).sum

/-- Rounding to one decimal place with ties upward: toFixed(1) at src/index.js
line 358, cast back to a number by the driver schema. -/
def round1 (q : Rat) : Rat := ((10 * q + 1/2).floor : Rat) / 10

/-- Driver.findByIdAndUpdate at src/index.js lines 357-360: write the new
average and count onto the driver record with the given id; when the booking
carries no driver reference the query matches nothing and the store is
unchanged. -/
def updateDriver (s : Store) (d : Option Nat) (avg : Rat) (n : Nat) : Store :=
  match d with
  | none => s
  | some did =>
      { s with drivers := s.drivers.map (fun dr =>
          if dr.id == did then { dr with averageRating := avg, totalRatings := n } else dr) }

/-- The booking document as the rate handler mutates it before saving
(src/index.js lines 343-345): rating and review from the request body, status
completed. -/
def rateSaved (b : Booking) (req : RateReq) : Booking :=
  { b with rating := req.rating, review := req.review, status := BStatus.completed }

/-- POST /bookings/:id/rate (src/index.js lines 327-371): find the booking by
id and owning customer (404 if absent), reject status pending or cancelled
(400), set rating, review and status completed and save (a rating outside the
schema range makes the save throw, caught as 500 with nothing persisted), then
recompute the driver average over every rated booking of that driver and write
it onto the driver record.  The branch with an empty rated set models the 0/0
average, a NaN whose cast in the driver update throws, caught as 500 after the
booking save already persisted. -/
def rateBooking (s : Store) (bid custId : Nat) (req : RateReq) : Store × RateResult :=
  match s.bookings.find? (fun b => b.id == bid && b.customer == custId) with
  | none => (s, RateResult.notFound)
  | some b =>
      if b.status == BStatus.pending || b.status == BStatus.cancelled then
        (s, RateResult.invalidState)
      else
        let b2 := rateSaved b req
        if bookingValid b2 then
          let saved : Store := { s with bookings := updateById s.bookings b2 }
          let rated := ratedFor saved.bookings b2.driver
          if rated.length == 0 then
            (saved, RateResult.serverError)
          else
            let avg := round1 (sumRatings rated / (rated.length : Rat))
            (updateDriver saved b2.driver avg rated.length, RateResult.ok req.rating avg)
        else (s, RateResult.serverError)

/-- The success branch of the rate handler written out on its own: the booking
saved under its id, then the driver record overwritten with the average and
count recomputed over the saved collection (src/index.js lines 343-366). -/
def rateSuccess (s : Store) (b : Booking) (req : RateReq) : Store × RateResult :=
  let b2 := rateSaved b req
  let saved : Store := { s with bookings := updateById s.bookings b2 }
  let rated := ratedFor saved.bookings b2.driver
  let avg := round1 (sumRatings rated / (rated.length : Rat))
  (updateDriver saved b2.driver avg rated.length, RateResult.ok req.rating avg)

/-- The request body of POST /bookings: the four fields the handler reads,
each possibly absent. -/
structure CreateReq where
  pickupLocation : Option String
  dropoffLocation : Option String
  fare : Option Rat
  distance : Option Rat
deriving DecidableEq

/-- The booking document POST /bookings constructs from a fully supplied
request (src/index.js lines 237-244): owner from the token, status pending,
no driver, no rating, createdAt from the schema default. -/
def mkPendingBooking (custId : Nat) (pu dof : String) (f dist : Rat)
    (newId now : Nat) : Booking :=
  { id := newId, customer := custId, driver := none, pickupLocation := pu,
    dropoffLocation := dof, fare := f, distance := dist, status := BStatus.pending,
    rating := none, review := none, createdAt := now }

/-- POST /bookings (src/index.js lines 233-255).  Mongoose required validation
rejects a missing field, and rejects an empty string for the required string
paths; the duplicate id branch models the unique _id index of the store. -/
def createBooking (s : Store) (custId : Nat) (req : CreateReq) (newId now : Nat) :
    Store × Except String Booking :=
  match req.pickupLocation, req.dropoffLocation, req.fare, req.distance with
  | some pu, some dof, some f, some dist =>
      if pu.isEmpty || dof.isEmpty then (s, Except.error "Booking validation failed")
      else if s.bookings.any (fun b => b.id == newId) then (s, Except.error "duplicate key")
      else
        let b := mkPendingBooking custId pu dof f dist newId now
        ({ s with bookings := s.bookings ++ [b] }, Except.ok b)
  | _, _, _, _ => (s, Except.error "Booking validation failed")

/-- Decide whether an accept or create call answered successfully. -/
def isOkE (e : Except String Booking) : Bool :=
  match e with
  | Except.ok _ => true
  | Except.error _ => false

/-- The ledger operations of the spec: Create, Claim, Cancel and Rate. -/
inductive Op where
  | create (custId : Nat) (req : CreateReq) (newId now : Nat)
  | claim (bid driverId : Nat)
  | cancel (bid custId : Nat)
  | rate (bid custId : Nat) (req : RateReq)

/-- The store produced by one ledger operation. -/
def applyOp (s : Store) : Op → Store
  | Op.create c r i t => (createBooking s c r i t).1
  | Op.claim b d => (acceptBooking s b d).1
  | Op.cancel b c => (cancelBooking s b c).1
  | Op.rate b c r => (rateBooking s b c r).1

/-- The store reached by a sequence of ledger operations. -/
def runOps (s : Store) (ops : List Op) : Store :=
  ops.foldl applyOp s

/-- Per-booking field invariant that the handlers actually maintain: accepted
or completed bookings carry a driver; pending bookings carry no driver, rating
or review; ratings and reviews appear only on completed bookings or on
bookings cancelled after completion or rating. -/
def bookingInv (b : Booking) : Prop :=
  ((b.status = BStatus.accepted ∨ b.status = BStatus.completed) → b.driver.isSome) ∧
  (b.status = BStatus.pending → b.driver = none ∧ b.rating = none ∧ b.review = none) ∧
  (b.rating.isSome → b.status = BStatus.completed ∨ b.status = BStatus.cancelled) ∧
  (b.review.isSome → b.status = BStatus.completed ∨ b.status = BStatus.cancelled)

instance (b : Booking) : Decidable (bookingInv b) := by
  unfold bookingInv
  infer_instance

/-- Every booking of the store satisfies the maintained invariant. -/
def storeInv (s : Store) : Prop := ∀ b ∈ s.bookings, bookingInv b

instance (s : Store) : Decidable (storeInv s) := by
  unfold storeInv
  infer_instance

/-- The booking invariant exactly as the specification words it (section 3):
driverId is set if and only if status is accepted or completed, and rating and
review are set if and only if status is completed. -/
def specBookingInv (b : Booking) : Prop :=
  (b.driver.isSome ↔ (b.status = BStatus.accepted ∨ b.status = BStatus.completed)) ∧
  (b.rating.isSome ↔ b.status = BStatus.completed) ∧
  (b.review.isSome ↔ b.status = BStatus.completed)

instance (b : Booking) : Decidable (specBookingInv b) := by
  unfold specBookingInv
  infer_instance

/-- Every booking of the store satisfies the invariant as the spec words it. -/
def specStoreInv (s : Store) : Prop := ∀ b ∈ s.bookings, specBookingInv b

instance (s : Store) : Decidable (specStoreInv s) := by
  unfold specStoreInv
  infer_instance

/-- A pending booking used by the concrete scenarios. -/
def pendBooking : Booking :=
  { id := 1, customer := 2, driver := none, pickupLocation := "Alpha",
    dropoffLocation := "Beta", fare := 20, distance := 5,
    status := BStatus.pending, rating := none, review := none, createdAt := 0 }

/-- A store holding one pending booking and one driver record. -/
def pendStore : Store :=
  { bookings := [pendBooking],
    drivers := [{ id := 10, averageRating := 0, totalRatings := 0 }] }

/-- An accepted, not yet rated booking of driver 5, used by the concrete
scenarios. -/
def accBooking : Booking :=
  { id := 1, customer := 2, driver := some 5, pickupLocation := "Alpha",
    dropoffLocation := "Beta", fare := 20, distance := 5,
    status := BStatus.accepted, rating := none, review := none, createdAt := 0 }

/-- A store holding one accepted booking of driver 5 and the record of driver
5; the driver has no rated booking yet. -/
def accStore : Store :=
  { bookings := [accBooking],
    drivers := [{ id := 5, averageRating := 0, totalRatings := 0 }] }

/-- A store where driver 5 already has two completed bookings rated 2 and one
accepted booking still unrated, all owned by customer 2. -/
def threeStore : Store :=
  { bookings :=
      [{ id := 1, customer := 2, driver := some 5, pickupLocation := "Alpha",
         dropoffLocation := "Beta", fare := 20, distance := 5,
         status := BStatus.completed, rating := some 2, review := none, createdAt := 0 },
       { id := 2, customer := 2, driver := some 5, pickupLocation := "Alpha",
         dropoffLocation := "Beta", fare := 20, distance := 5,
         status := BStatus.completed, rating := some 2, review := none, createdAt := 1 },
       { id := 3, customer := 2, driver := some 5, pickupLocation := "Alpha",
         dropoffLocation := "Beta", fare := 20, distance := 5,
         status := BStatus.accepted, rating := none, review := none, createdAt := 2 }],
    drivers := [{ id := 5, averageRating := 2, totalRatings := 2 }] }

/-- The store with empty collections. -/
def emptyStore : Store := { bookings := [], drivers := [] }

/-- A fully supplied create request. -/
def fullCreateReq : CreateReq :=
  { pickupLocation := some "Alpha", dropoffLocation := some "Beta",
    fare := some 20, distance := some 5 }

/-- Create a booking, let driver 10 claim it, then let the customer cancel it:
the cancel succeeds although the booking is already accepted. -/
def cancelAfterClaimOps : List Op :=
  [Op.create 2 fullCreateReq 1 0, Op.claim 1 10, Op.cancel 1 2]

end GroupG

namespace Legacy

/-- A booking document of the older server variant, after the schema in
src/unnamed/part_000: customerId, driverId and rating all optional. -/
structure LBooking where
  customerId : Option Nat
  driverId : Option Nat
  status : String
  rating : Option Rat
deriving DecidableEq

/-- The response body of GET /drivers/:id/ratings in the older server variant
(src/unnamed/part_002 lines 158-178). -/
structure RatingsSummary where
  driverId : Nat
  totalRatings : Nat
  averageRating : Rat
  ratingsList : List Rat
deriving DecidableEq

/-- GET /drivers/:id/ratings (src/unnamed/part_002 lines 158-178): collect the
ratings of the bookings with the given driverId and an existing rating, and
divide their sum by their number only when there is at least one. -/
def driverRatings (bookings : List LBooking) (did : Nat) : RatingsSummary :=
  let bs := bookings.filter (fun b => b.driverId == some did && b.rating.isSome)
  let ratings := bs.map (fun b => b.rating.getD 0)
  let average : Rat :=
    if ratings.length > 0 then ratings.sum / (ratings.length : Rat) else 0
  { driverId := did, totalRatings := ratings.length, averageRating := average,
    ratingsList := ratings }

end Legacy

namespace GroupG

/-- Membership in an updated collection: every element is the written document
or an untouched original with a different id. -/
theorem mem_updateById {l : List Booking} {b2 x : Booking}
    (hx : x ∈ updateById l b2) : x = b2 ∨ (x ∈ l ∧ x.id ≠ b2.id) := by
  rcases List.mem_map.mp hx with ⟨y, hy, hxy⟩
  by_cases hid : (y.id == b2.id) = true
  · left
    rw [← hxy]
    simp [hid]
  · right
    have : x = y := by
      rw [← hxy]
      simp [hid]
    subst this
    exact ⟨hy, by simpa using hid⟩

/-- The written document is a member of the updated collection as soon as some
original shares its id. -/
theorem updated_mem_updateById {l : List Booking} {b b2 : Booking}
    (hb : b ∈ l) (hid : b.id = b2.id) : b2 ∈ updateById l b2 := by
  unfold updateById
  exact List.mem_map.mpr ⟨b, hb, by simp [hid]⟩

/-- C3.  Sequential semantics of Claim: PATCH /bookings/:id/accept succeeds
exactly when a booking with the requested id is present with status pending;
on success the booking carries the claiming driver and status accepted, and on
failure the store is unchanged and the answer is the 400 conflict message. -/
theorem accept_sequential_semantics (s : Store) (bid d : Nat) :
    (isOkE (acceptBooking s bid d).2 = true ↔
      ∃ b ∈ s.bookings, b.id = bid ∧ b.status = BStatus.pending) ∧
    (∀ x, (acceptBooking s bid d).2 = Except.ok x →
      x.driver = some d ∧ x.status = BStatus.accepted ∧
      ∀ y ∈ (acceptBooking s bid d).1.bookings, y.id = bid → y = x) ∧
    (∀ e, (acceptBooking s bid d).2 = Except.error e →
      (acceptBooking s bid d).1 = s ∧
      e = "Booking not found or already taken by other driver") := by
  unfold acceptBooking acceptRead acceptWrite
  cases hf : s.bookings.find? (fun b => b.id == bid && b.status == BStatus.pending) with
  | none =>
      refine ⟨?_, ?_, ?_⟩
      · simp only [isOkE]
        constructor
        · intro h
          exact absurd h (by simp)
        · rintro ⟨b, hb, hid, hst⟩
          have := List.find?_eq_none.mp hf b hb
          simp [hid, hst] at this
      · intro x hx
        simp [isOkE] at hx
      · intro e he
        refine ⟨rfl, ?_⟩
        simpa using he.symm
  | some b =>
      have hpred := List.find?_some hf
      have hmem := List.mem_of_find?_eq_some hf
      simp only [Bool.and_eq_true, beq_iff_eq] at hpred
      refine ⟨?_, ?_, ?_⟩
      · simp only [isOkE]
        constructor
        · intro _
          exact ⟨b, hmem, hpred.1, hpred.2⟩
        · intro _
          trivial
      · intro x hx
        simp only at hx
        have hx2 : { b with driver := some d, status := BStatus.accepted } = x :=
          Except.ok.inj hx
        subst hx2
        refine ⟨rfl, rfl, ?_⟩
        intro y hy hyid
        rcases mem_updateById hy with h | ⟨_, hne⟩
        · exact h
        · exact absurd (hyid.trans hpred.1.symm) hne
      · intro e he
        simp at he

/-- Witness for C3 at a concrete store: claiming the pending booking of
pendStore succeeds. -/
theorem accept_sequential_semantics_witness :
    isOkE (acceptBooking pendStore 1 10).2 = true :=
  (accept_sequential_semantics pendStore 1 10).1.mpr
    ⟨pendBooking, by decide, by decide, by decide⟩

/-- C2 counterexample.  The two phases of the accept handler are separate
steps: when two claims for drivers 10 and 20 both read before either writes,
both report success, no Conflict is answered, and the second write silently
overwrites the first driver, so the concurrent exactly-once property of the
claim does not hold of findOne followed by save. -/
theorem claim_interleaving_both_succeed :
    isOkE (acceptWrite pendStore (acceptRead pendStore 1) 10).2 = true ∧
    isOkE (acceptWrite (acceptWrite pendStore (acceptRead pendStore 1) 10).1
      (acceptRead pendStore 1) 20).2 = true ∧
    ((acceptWrite (acceptWrite pendStore (acceptRead pendStore 1) 10).1
      (acceptRead pendStore 1) 20).1.bookings.map (fun b => b.driver)) = [some 20] := by
  decide

/-- C2 amended.  Without interleaving the claim is exactly-once: after a claim
succeeds, any later claim of the same booking fails with the conflict
answer. -/
theorem claim_second_attempt_conflicts (s : Store) (bid d d2 : Nat) (x : Booking)
    (h : (acceptBooking s bid d).2 = Except.ok x) :
    (acceptBooking (acceptBooking s bid d).1 bid d2).2 =
      Except.error "Booking not found or already taken by other driver" := by
  unfold acceptBooking acceptRead acceptWrite at h ⊢
  cases hf : s.bookings.find? (fun b => b.id == bid && b.status == BStatus.pending) with
  | none =>
      rw [hf] at h
      simp at h
  | some b =>
      rw [hf] at h
      simp only at h ⊢
      have hnone : (updateById s.bookings
          { b with driver := some d, status := BStatus.accepted }).find?
          (fun b => b.id == bid && b.status == BStatus.pending) = none := by
        apply List.find?_eq_none.mpr
        intro y hy
        rcases mem_updateById hy with rfl | ⟨_, hne⟩
        · simp
        · have hpred := List.find?_some hf
          simp only [Bool.and_eq_true, beq_iff_eq] at hpred
          simp only [Bool.and_eq_true, beq_iff_eq, not_and]
          intro hyid
          exact absurd (hyid.trans hpred.1.symm) hne
      rw [hnone]

/-- Witness for the amended C2 at a concrete store: after driver 10 claims the
pending booking, a claim by driver 20 is answered with the conflict error. -/
theorem claim_second_attempt_conflicts_witness :
    (acceptBooking (acceptBooking pendStore 1 10).1 1 20).2 =
      Except.error "Booking not found or already taken by other driver" :=
  claim_second_attempt_conflicts pendStore 1 10 20
    { pendBooking with driver := some 10, status := BStatus.accepted } (by rfl)

end GroupG

namespace GroupG

/-- C5 counterexample.  On the accepted booking of accStore a rating of 6 is
rejected, but as a 500 caught schema error, not as a 400 validation answer,
while the non-integer rating 3.5 inside [1,5] is accepted outright; the store
is left unchanged in the 6 case. -/
theorem rate_out_of_range_is_500_not_400 :
    rateHttpCode (rateBooking accStore 1 2 { rating := some 6, review := none }).2 = 500 ∧
    rateHttpCode (rateBooking accStore 1 2 { rating := some 6, review := none }).2 ≠ 400 ∧
    (rateBooking accStore 1 2 { rating := some 6, review := none }).1 = accStore ∧
    rateHttpCode (rateBooking accStore 1 2 { rating := some (7/2), review := none }).2 = 200 := by
  decide

/-- C5 amended.  A rate call whose rating lies outside [1,5] on a found,
owned, ratable booking fails and leaves the store unchanged, but through the
caught mongoose validation error of the save, answered as 500, not as a 400
validation answer. -/
theorem rate_out_of_range_rejected (s : Store) (bid cust : Nat) (req : RateReq)
    (b : Booking) (r : Rat)
    (hfind : s.bookings.find? (fun x => x.id == bid && x.customer == cust) = some b)
    (hstat : b.status ≠ BStatus.pending ∧ b.status ≠ BStatus.cancelled)
    (hr : req.rating = some r) (hout : r < 1 ∨ 5 < r) :
    rateBooking s bid cust req = (s, RateResult.serverError) := by
  unfold rateBooking
  rw [hfind]
  have h1 : (b.status == BStatus.pending || b.status == BStatus.cancelled) = false := by
    simp [hstat.1, hstat.2]
  have h2 : bookingValid (rateSaved b req) = false := by
    simp only [bookingValid, rateSaved, hr]
    rcases hout with h | h
    · simp [not_le.mpr h]
    · simp [not_le.mpr h]
  simp [h1, h2]

/-- Witness for the amended C5: rating 6 on the accepted booking of accStore
is answered 500 with the store unchanged. -/
theorem rate_out_of_range_rejected_witness :
    rateBooking accStore 1 2 { rating := some 6, review := none } =
      (accStore, RateResult.serverError) :=
  rate_out_of_range_rejected accStore 1 2 { rating := some 6, review := none }
    accBooking 6 (by rfl) (by decide) (by rfl) (Or.inr (by decide))

/-- C6.  A rate call for an id and customer pair matching no booking is
answered 404 not found with the store untouched, and a rate call on a booking
whose status is pending or cancelled is answered 400 invalid state with the
store untouched; in both cases no booking and no driver record changes. -/
theorem rate_notfound_or_invalid_unchanged (s : Store) (bid cust : Nat) (req : RateReq) :
    (s.bookings.find? (fun x => x.id == bid && x.customer == cust) = none →
      rateBooking s bid cust req = (s, RateResult.notFound)) ∧
    (∀ b, s.bookings.find? (fun x => x.id == bid && x.customer == cust) = some b →
      (b.status = BStatus.pending ∨ b.status = BStatus.cancelled) →
      rateBooking s bid cust req = (s, RateResult.invalidState)) := by
  constructor
  · intro h
    unfold rateBooking
    rw [h]
  · intro b hb hst
    unfold rateBooking
    rw [hb]
    have h1 : (b.status == BStatus.pending || b.status == BStatus.cancelled) = true := by
      rcases hst with h | h <;> simp [h]
    simp [h1]

/-- Witness for C6 at concrete stores: an unknown booking id is answered 404,
and rating the pending booking of pendStore is answered 400. -/
theorem rate_notfound_or_invalid_unchanged_witness :
    rateBooking accStore 9 2 { rating := some 4, review := none } =
      (accStore, RateResult.notFound) ∧
    rateBooking pendStore 1 2 { rating := some 4, review := none } =
      (pendStore, RateResult.invalidState) :=
  ⟨(rate_notfound_or_invalid_unchanged accStore 9 2
      { rating := some 4, review := none }).1 (by rfl),
   (rate_notfound_or_invalid_unchanged pendStore 1 2
      { rating := some 4, review := none }).2 pendBooking (by rfl) (Or.inl (by rfl))⟩

end GroupG

namespace Legacy

/-- C10.  The legacy ratings query is total on the empty case: for a driver id
with no rated booking it answers zero totals and an empty list, the division
being guarded by the length check. -/
theorem driverRatings_empty_safe (bookings : List LBooking) (did : Nat)
    (h : bookings.filter (fun b => b.driverId == some did && b.rating.isSome) = []) :
    driverRatings bookings did =
      { driverId := did, totalRatings := 0, averageRating := 0, ratingsList := [] } := by
  unfold driverRatings
  rw [h]
  simp

/-- Witness for C10: the ratings summary of driver 7 over an empty bookings
collection. -/
theorem driverRatings_empty_safe_witness :
    driverRatings [] 7 =
      { driverId := 7, totalRatings := 0, averageRating := 0, ratingsList := [] } :=
  driverRatings_empty_safe [] 7 (by rfl)

end Legacy

namespace GroupG

/-- The driver update never touches the bookings collection. -/
theorem updateDriver_bookings (s : Store) (d : Option Nat) (a : Rat) (n : Nat) :
    (updateDriver s d a n).bookings = s.bookings := by
  cases d <;> rfl

/-- The saved booking document keeps the id, customer and driver of the
original. -/
theorem rateSaved_fields (b : Booking) (req : RateReq) :
    (rateSaved b req).id = b.id ∧ (rateSaved b req).customer = b.customer ∧
    (rateSaved b req).driver = b.driver ∧ (rateSaved b req).rating = req.rating ∧
    (rateSaved b req).review = req.review ∧ (rateSaved b req).status = BStatus.completed := by
  unfold rateSaved
  exact ⟨rfl, rfl, rfl, rfl, rfl, rfl⟩

/-- The saved booking belongs to the rated set of its driver as soon as the
request carries a rating. -/
theorem rateSaved_mem_rated {s : Store} {bid cust : Nat} {req : RateReq} {b : Booking} {r : Rat}
    (hfind : s.bookings.find? (fun x => x.id == bid && x.customer == cust) = some b)
    (hr : req.rating = some r) :
    rateSaved b req ∈ ratedFor (updateById s.bookings (rateSaved b req)) (rateSaved b req).driver := by
  unfold ratedFor
  apply List.mem_filter.mpr
  constructor
  · exact updated_mem_updateById (List.mem_of_find?_eq_some hfind) rfl
  · simp [rateSaved, hr]

/-- On a found, owned, ratable booking with an in-range rating the rate
handler takes its success branch, and the produced store and answer are those
of rateSuccess. -/
theorem rate_success_eq {s : Store} {bid cust : Nat} {req : RateReq} {b : Booking} {r : Rat}
    (hfind : s.bookings.find? (fun x => x.id == bid && x.customer == cust) = some b)
    (hstat : b.status ≠ BStatus.pending ∧ b.status ≠ BStatus.cancelled)
    (hr : req.rating = some r) (h1r : 1 ≤ r) (h5r : r ≤ 5) :
    rateBooking s bid cust req = rateSuccess s b req := by
  unfold rateBooking
  rw [hfind]
  have h1 : (b.status == BStatus.pending || b.status == BStatus.cancelled) = false := by
    simp [hstat.1, hstat.2]
  have h2 : bookingValid (rateSaved b req) = true := by
    simp [bookingValid, rateSaved, hr, h1r, h5r]
  have h3 : ((ratedFor (updateById s.bookings (rateSaved b req))
      (rateSaved b req).driver).length == 0) = false := by
    have hmem := rateSaved_mem_rated hfind hr
    have hpos := List.length_pos.mpr (List.ne_nil_of_mem hmem)
    simp [Nat.pos_iff_ne_zero.mp hpos]
  simp only [h1, Bool.false_eq_true, if_false, h2, if_true]
  simp only [h3, Bool.false_eq_true, if_false]
  rfl

/-- C7 amended.  Whenever the rate request carries an in-range rating, the
just-rated booking is saved with its rating before the recompute reads, so the
rated set of the driver of the booking is non-empty, the divisor is positive
and the handler does not hit the empty-average branch. -/
theorem rate_divisor_positive (s : Store) (bid cust : Nat) (req : RateReq)
    (b : Booking) (r : Rat)
    (hfind : s.bookings.find? (fun x => x.id == bid && x.customer == cust) = some b)
    (hstat : b.status ≠ BStatus.pending ∧ b.status ≠ BStatus.cancelled)
    (hr : req.rating = some r) (h1r : 1 ≤ r) (h5r : r ≤ 5) :
    0 < (ratedFor (rateBooking s bid cust req).1.bookings b.driver).length ∧
    (rateBooking s bid cust req).2 ≠ RateResult.serverError := by
  rw [rate_success_eq hfind hstat hr h1r h5r]
  unfold rateSuccess
  simp only [updateDriver_bookings]
  constructor
  · have hmem := rateSaved_mem_rated hfind hr
    have hdrv : (rateSaved b req).driver = b.driver := rfl
    rw [hdrv] at hmem
    exact List.length_pos.mpr (List.ne_nil_of_mem hmem)
  · simp

/-- Witness for the amended C7: rating the accepted booking of accStore with 4
leaves driver 5 with one rated booking and no empty-average error. -/
theorem rate_divisor_positive_witness :
    0 < (ratedFor (rateBooking accStore 1 2 { rating := some 4, review := none }).1.bookings
      accBooking.driver).length ∧
    (rateBooking accStore 1 2 { rating := some 4, review := none }).2 ≠
      RateResult.serverError :=
  rate_divisor_positive accStore 1 2 { rating := some 4, review := none }
    accBooking 4 (by rfl) (by decide) (by rfl) (by decide) (by decide)

/-- C7 counterexample.  A rate request with no rating at all passes every
guard of the handler: the booking of accStore is saved as completed without a
rating, the rated set of driver 5 read by the recompute is empty, and the 0/0
average reaches the driver update as NaN, answered 500, so the empty-divisor
branch is reachable. -/
theorem rate_without_rating_empty_divisor :
    (rateBooking accStore 1 2 { rating := none, review := none }).2 =
      RateResult.serverError ∧
    (ratedFor (rateBooking accStore 1 2 { rating := none, review := none }).1.bookings
      (some 5)).length = 0 ∧
    ((rateBooking accStore 1 2 { rating := none, review := none }).1.bookings.map
      (fun b => b.status)) = [BStatus.completed] := by
  decide

end GroupG

namespace GroupG

/-- C1 amended.  Immediately after every successful rate call, the record of
the rated booking driver holds exactly the full recomputation over the current
bookings collection: totalRatings is the number of rated bookings of that
driver, and averageRating is their mean rounded to one decimal place; the
value is recomputed from the bookings each time, not incrementally. -/
theorem rate_recomputes_driver_average (s : Store) (bid cust : Nat) (req : RateReq)
    (b : Booking) (d : Nat) (r : Rat)
    (hfind : s.bookings.find? (fun x => x.id == bid && x.customer == cust) = some b)
    (hstat : b.status ≠ BStatus.pending ∧ b.status ≠ BStatus.cancelled)
    (hr : req.rating = some r) (h1r : 1 ≤ r) (h5r : r ≤ 5)
    (hd : b.driver = some d) :
    rateHttpCode (rateBooking s bid cust req).2 = 200 ∧
    ∀ dr ∈ (rateBooking s bid cust req).1.drivers, dr.id = d →
      dr.totalRatings =
        (ratedFor (rateBooking s bid cust req).1.bookings (some d)).length ∧
      dr.averageRating =
        round1 (sumRatings (ratedFor (rateBooking s bid cust req).1.bookings (some d)) /
          ((ratedFor (rateBooking s bid cust req).1.bookings (some d)).length : Rat)) := by
  rw [rate_success_eq hfind hstat hr h1r h5r]
  have hdrv : (rateSaved b req).driver = some d := by
    simp [rateSaved, hd]
  simp only [rateSuccess, hdrv, updateDriver, updateDriver_bookings]
  refine ⟨rfl, ?_⟩
  intro dr hdr hid
  rcases List.mem_map.mp hdr with ⟨dr0, hdr0, heq⟩
  by_cases hc : (dr0.id == d) = true
  · rw [← heq]
    simp [hc]
  · rw [← heq] at hid
    simp [hc] at hid
    exact absurd (beq_iff_eq.mpr hid) hc

/-- Witness for the amended C1: rating the accepted booking of accStore with 4
is answered 200. -/
theorem rate_recomputes_driver_average_witness :
    rateHttpCode (rateBooking accStore 1 2 { rating := some 4, review := none }).2 = 200 :=
  (rate_recomputes_driver_average accStore 1 2 { rating := some 4, review := none }
    accBooking 5 4 (by rfl) (by decide) (by rfl) (by decide) (by decide) (by rfl)).1

/-- C1 counterexample.  In threeStore driver 5 ends with ratings 2, 2 and 1:
the stored averageRating is the rounded 1.7 while the arithmetic mean of the
rated bookings is 5/3, so the stored value does not equal the exact mean. -/
theorem rate_average_is_rounded_not_exact :
    ((rateBooking threeStore 3 2 { rating := some 1, review := none }).1.drivers.map
      (fun dr => dr.averageRating)) = [17/10] ∧
    sumRatings (ratedFor
        (rateBooking threeStore 3 2 { rating := some 1, review := none }).1.bookings
        (some 5)) /
      ((ratedFor (rateBooking threeStore 3 2 { rating := some 1, review := none }).1.bookings
        (some 5)).length : Rat) = 5/3 ∧
    (17/10 : Rat) ≠ 5/3 := by
  decide

end GroupG

namespace GroupG

/-- C8.  Create validation and success: POST /bookings is answered 400 when
pickupLocation, dropoffLocation, fare or distance is missing or an empty
string is supplied for a required string path; with all fields supplied and
the new id fresh it persists exactly one new booking with status pending, no
driver, the requesting customer as owner and the creation time set, and the
booking is afterwards retrievable by its id. -/
theorem create_booking_spec (s : Store) (cust : Nat) (req : CreateReq) (newId now : Nat) :
    ((req.pickupLocation = none ∨ req.dropoffLocation = none ∨ req.fare = none ∨
        req.distance = none ∨ req.pickupLocation = some "" ∨ req.dropoffLocation = some "") →
      createBooking s cust req newId now = (s, Except.error "Booking validation failed")) ∧
    (∀ pu dof f dist, req = ⟨some pu, some dof, some f, some dist⟩ →
      pu.isEmpty = false → dof.isEmpty = false →
      (∀ y ∈ s.bookings, y.id ≠ newId) →
      createBooking s cust req newId now =
        ({ s with bookings := s.bookings ++ [mkPendingBooking cust pu dof f dist newId now] },
          Except.ok (mkPendingBooking cust pu dof f dist newId now)) ∧
      (mkPendingBooking cust pu dof f dist newId now).status = BStatus.pending ∧
      (mkPendingBooking cust pu dof f dist newId now).driver = none ∧
      (mkPendingBooking cust pu dof f dist newId now).customer = cust ∧
      (mkPendingBooking cust pu dof f dist newId now).createdAt = now ∧
      findBooking (createBooking s cust req newId now).1 newId =
        some (mkPendingBooking cust pu dof f dist newId now)) := by
  obtain ⟨p0, q0, f0, d0⟩ := req
  constructor
  · intro h
    simp only at h
    cases p0 <;> cases q0 <;> cases f0 <;> cases d0 <;>
      simp_all [createBooking, String.isEmpty_iff]
  · intro pu dof f dist hreq hpu hdof hfresh
    have hp : p0 = some pu := congrArg CreateReq.pickupLocation hreq
    have hq : q0 = some dof := congrArg CreateReq.dropoffLocation hreq
    have hf : f0 = some f := congrArg CreateReq.fare hreq
    have hd : d0 = some dist := congrArg CreateReq.distance hreq
    subst hp hq hf hd
    have hany : (s.bookings.any (fun b => b.id == newId)) = false := by
      rw [List.any_eq_false]
      intro y hy
      simpa using hfresh y hy
    have hmain : createBooking s cust ⟨some pu, some dof, some f, some dist⟩ newId now =
        ({ s with bookings := s.bookings ++ [mkPendingBooking cust pu dof f dist newId now] },
          Except.ok (mkPendingBooking cust pu dof f dist newId now)) := by
      unfold createBooking
      simp [hpu, hdof, hany]
    refine ⟨hmain, rfl, rfl, rfl, rfl, ?_⟩
    rw [hmain]
    unfold findBooking
    rw [List.find?_append]
    have hnone : s.bookings.find? (fun b => b.id == newId) = none := by
      rw [List.find?_eq_none]
      intro y hy
      simpa using hfresh y hy
    rw [hnone]
    simp [mkPendingBooking]

/-- Witness for C8: creating a booking in the empty store with the full
request succeeds and the booking is retrievable under id 1. -/
theorem create_booking_spec_witness :
    findBooking (createBooking emptyStore 2 fullCreateReq 1 0).1 1 =
      some (mkPendingBooking 2 "Alpha" "Beta" 20 5 1 0) := by
  have h := (create_booking_spec emptyStore 2 fullCreateReq 1 0).2 "Alpha" "Beta" 20 5
    (by rfl) (by rfl) (by rfl) (by intro y hy; cases hy)
  exact h.2.2.2.2.2

end GroupG

namespace GroupG

/-- sumRatings over a cons. -/
theorem sumRatings_cons (a : Booking) (l : List Booking) :
    sumRatings (a :: l) = a.rating.getD 0 + sumRatings l := by
  simp [sumRatings]

/-- Updating a collection in which no element carries the written id changes
nothing. -/
theorem updateById_eq_of_no_id {l : List Booking} {b2 : Booking}
    (h : ∀ x ∈ l, x.id ≠ b2.id) : updateById l b2 = l := by
  induction l with
  | nil => rfl
  | cons x xs ih =>
      have hx : (x.id == b2.id) = false := by
        simpa using h x (List.mem_cons_self x xs)
      have ih2 := ih (fun y hy => h y (List.mem_cons_of_mem x hy))
      simp only [updateById, List.map_cons] at ih2 ⊢
      rw [hx]
      simp only [Bool.false_eq_true, if_false]
      rw [ih2]

/-- With pairwise distinct ids, saving a document that satisfies the filter in
place of an original that satisfied it leaves the filtered length
unchanged. -/
theorem filter_updateById_length {l : List Booking} {b b2 : Booking} {p : Booking → Bool}
    (hnd : (l.map (fun x => x.id)).Nodup) (hb : b ∈ l) (hid : b2.id = b.id)
    (hpb : p b = true) (hpb2 : p b2 = true) :
    ((updateById l b2).filter p).length = (l.filter p).length := by
  induction l with
  | nil => cases hb
  | cons x xs ih =>
      rw [List.map_cons, List.nodup_cons] at hnd
      rcases List.mem_cons.mp hb with rfl | hbxs
      · have hxs : updateById xs b2 = xs := by
          apply updateById_eq_of_no_id
          intro y hy hyid
          exact hnd.1 (hid ▸ hyid ▸ List.mem_map_of_mem (fun z => z.id) hy)
        have hcons : updateById (b :: xs) b2 = b2 :: xs := by
          simp only [updateById, List.map_cons]
          rw [if_pos (beq_iff_eq.mpr hid.symm)]
          simp only [updateById] at hxs
          rw [hxs]
        rw [hcons, List.filter_cons, List.filter_cons, if_pos hpb2, if_pos hpb]
        simp
      · have hxid : (x.id == b2.id) = false := by
          apply beq_eq_false_iff_ne.mpr
          intro hcontra
          exact hnd.1 ((hcontra.trans hid) ▸ List.mem_map_of_mem (fun z => z.id) hbxs)
        have hcons : updateById (x :: xs) b2 = x :: updateById xs b2 := by
          simp only [updateById, List.map_cons]
          rw [hxid]
          simp
        rw [hcons, List.filter_cons, List.filter_cons]
        cases hpx : p x with
        | false =>
            simp only [Bool.false_eq_true, if_false]
            exact ih hnd.2 hbxs
        | true =>
            simp only [if_true]
            simp [ih hnd.2 hbxs]

/-- With pairwise distinct ids, saving a document that satisfies the filter in
place of an original that satisfied it replaces exactly the rating of that
original in the filtered sum. -/
theorem filter_updateById_sum {l : List Booking} {b b2 : Booking} {p : Booking → Bool}
    (hnd : (l.map (fun x => x.id)).Nodup) (hb : b ∈ l) (hid : b2.id = b.id)
    (hpb : p b = true) (hpb2 : p b2 = true) :
    sumRatings ((updateById l b2).filter p) =
      sumRatings (l.filter p) - b.rating.getD 0 + b2.rating.getD 0 := by
  induction l with
  | nil => cases hb
  | cons x xs ih =>
      rw [List.map_cons, List.nodup_cons] at hnd
      rcases List.mem_cons.mp hb with rfl | hbxs
      · have hxs : updateById xs b2 = xs := by
          apply updateById_eq_of_no_id
          intro y hy hyid
          exact hnd.1 (hid ▸ hyid ▸ List.mem_map_of_mem (fun z => z.id) hy)
        have hcons : updateById (b :: xs) b2 = b2 :: xs := by
          simp only [updateById, List.map_cons]
          rw [if_pos (beq_iff_eq.mpr hid.symm)]
          simp only [updateById] at hxs
          rw [hxs]
        rw [hcons, List.filter_cons, List.filter_cons, if_pos hpb2, if_pos hpb,
          sumRatings_cons, sumRatings_cons]
        ring
      · have hxid : (x.id == b2.id) = false := by
          apply beq_eq_false_iff_ne.mpr
          intro hcontra
          exact hnd.1 ((hcontra.trans hid) ▸ List.mem_map_of_mem (fun z => z.id) hbxs)
        have hcons : updateById (x :: xs) b2 = x :: updateById xs b2 := by
          simp only [updateById, List.map_cons]
          rw [hxid]
          simp
        rw [hcons, List.filter_cons, List.filter_cons]
        cases hpx : p x with
        | false =>
            simp only [Bool.false_eq_true, if_false]
            exact ih hnd.2 hbxs
        | true =>
            simp only [if_true]
            rw [sumRatings_cons, sumRatings_cons, ih hnd.2 hbxs]
            ring

end GroupG

namespace GroupG

/-- C9.  Re-rating replaces rather than accumulates: rating an already
completed, already rated booking again with a valid rating succeeds, the
booking keeps status completed with the new rating and review in place of the
old, the rated set of the driver keeps its size, and the recomputation counts
the booking exactly once, so totalRatings is the unchanged count and
averageRating is the rounded mean with the new rating in place of the old. -/
theorem rerate_replaces (s : Store) (bid cust : Nat) (req : RateReq)
    (b : Booking) (d : Nat) (rOld rNew : Rat)
    (hnd : (s.bookings.map (fun x => x.id)).Nodup)
    (hfind : s.bookings.find? (fun x => x.id == bid && x.customer == cust) = some b)
    (hcomp : b.status = BStatus.completed)
    (hold : b.rating = some rOld)
    (hd : b.driver = some d)
    (hr : req.rating = some rNew) (h1r : 1 ≤ rNew) (h5r : rNew ≤ 5) :
    rateHttpCode (rateBooking s bid cust req).2 = 200 ∧
    (∀ y ∈ (rateBooking s bid cust req).1.bookings, y.id = bid →
      y.status = BStatus.completed ∧ y.rating = some rNew ∧ y.review = req.review) ∧
    (ratedFor (rateBooking s bid cust req).1.bookings (some d)).length =
      (ratedFor s.bookings (some d)).length ∧
    (∀ dr ∈ (rateBooking s bid cust req).1.drivers, dr.id = d →
      dr.totalRatings = (ratedFor s.bookings (some d)).length ∧
      dr.averageRating =
        round1 ((sumRatings (ratedFor s.bookings (some d)) - rOld + rNew) /
          ((ratedFor s.bookings (some d)).length : Rat))) := by
  have hstat : b.status ≠ BStatus.pending ∧ b.status ≠ BStatus.cancelled := by
    rw [hcomp]
    exact ⟨by simp, by simp⟩
  have hpred := List.find?_some hfind
  simp only [Bool.and_eq_true, beq_iff_eq] at hpred
  have hdrv : (rateSaved b req).driver = some d := by
    simp [rateSaved, hd]
  have hlen : (ratedFor (updateById s.bookings (rateSaved b req)) (some d)).length =
      (ratedFor s.bookings (some d)).length := by
    unfold ratedFor
    exact filter_updateById_length hnd (List.mem_of_find?_eq_some hfind) rfl
      (by simp [hd, hold]) (by simp [rateSaved, hd, hr])
  have hsum : sumRatings (ratedFor (updateById s.bookings (rateSaved b req)) (some d)) =
      sumRatings (ratedFor s.bookings (some d)) - rOld + rNew := by
    unfold ratedFor
    have h0 := @filter_updateById_sum s.bookings b (rateSaved b req)
      (fun x => x.driver == some d && x.rating.isSome) hnd
      (List.mem_of_find?_eq_some hfind) rfl
      (by simp [hd, hold]) (by simp [rateSaved, hd, hr])
    rw [h0]
    simp [hold, rateSaved, hr]
  rw [rate_success_eq hfind hstat hr h1r h5r]
  simp only [rateSuccess, hdrv, updateDriver, updateDriver_bookings]
  refine ⟨rfl, ?_, ?_, ?_⟩
  · intro y hy hyid
    rcases mem_updateById hy with rfl | ⟨_, hne⟩
    · exact ⟨rfl, by simp [rateSaved, hr], rfl⟩
    · have : (rateSaved b req).id = bid := hpred.1
      exact absurd (hyid.trans this.symm) hne
  · exact hlen
  · intro dr hdr hid
    rcases List.mem_map.mp hdr with ⟨dr0, hdr0, heq⟩
    by_cases hc : (dr0.id == d) = true
    · rw [← heq]
      simp only [hc, if_true]
      exact ⟨hlen, by rw [hsum, hlen]⟩
    · rw [← heq] at hid
      simp [hc] at hid
      exact absurd (beq_iff_eq.mpr hid) hc

/-- Witness for C9: re-rating the completed booking 1 of threeStore (rated 2)
with 5 keeps driver 5 at two rated bookings. -/
theorem rerate_replaces_witness :
    (ratedFor (rateBooking threeStore 1 2 { rating := some 5, review := none }).1.bookings
      (some 5)).length = (ratedFor threeStore.bookings (some 5)).length :=
  (rerate_replaces threeStore 1 2 { rating := some 5, review := none }
    { id := 1, customer := 2, driver := some 5, pickupLocation := "Alpha",
      dropoffLocation := "Beta", fare := 20, distance := 5,
      status := BStatus.completed, rating := some 2, review := none, createdAt := 0 }
    5 2 5 (by decide) (by rfl) (by rfl) (by rfl) (by rfl) (by rfl) (by decide)
    (by decide)).2.2.1

end GroupG

namespace GroupG

/-- Create preserves the maintained booking invariant: the new booking is
pending with no driver, rating or review, and no other booking changes. -/
theorem storeInv_create (s : Store) (c : Nat) (r : CreateReq) (i t : Nat)
    (hs : storeInv s) : storeInv (createBooking s c r i t).1 := by
  intro b hb
  unfold createBooking at hb
  rcases r with ⟨p0, q0, f0, d0⟩
  cases p0 with
  | none => exact hs b hb
  | some pu =>
  cases q0 with
  | none => exact hs b hb
  | some dof =>
  cases f0 with
  | none => exact hs b hb
  | some f =>
  cases d0 with
  | none => exact hs b hb
  | some dist =>
  simp only at hb
  split at hb
  · exact hs b hb
  · split at hb
    · exact hs b hb
    · rcases List.mem_append.mp hb with h | h
      · exact hs b h
      · rcases List.mem_singleton.mp h with rfl
        refine ⟨?_, ?_, ?_, ?_⟩ <;> simp [mkPendingBooking]

/-- Claim preserves the maintained booking invariant: a pending booking
becomes accepted with a driver and still no rating or review. -/
theorem storeInv_accept (s : Store) (bid dId : Nat) (hs : storeInv s) :
    storeInv (acceptBooking s bid dId).1 := by
  unfold acceptBooking acceptRead acceptWrite
  cases hf : s.bookings.find? (fun b => b.id == bid && b.status == BStatus.pending) with
  | none => exact hs
  | some b =>
      have hpred := List.find?_some hf
      simp only [Bool.and_eq_true, beq_iff_eq] at hpred
      have hclean := (hs b (List.mem_of_find?_eq_some hf)).2.1 hpred.2
      intro y hy
      simp only at hy
      rcases mem_updateById hy with rfl | ⟨hmem, _⟩
      · refine ⟨fun _ => by simp, fun hc => BStatus.noConfusion hc, ?_, ?_⟩
        · intro hc
          have : b.rating = none := hclean.2.1
          simp only [this] at hc
          cases hc
        · intro hc
          have : b.review = none := hclean.2.2
          simp only [this] at hc
          cases hc
      · exact hs y hmem

/-- Cancel preserves the maintained booking invariant: the cancelled status
makes every clause about rating and review hold whatever fields the booking
kept. -/
theorem storeInv_cancel (s : Store) (bid c : Nat) (hs : storeInv s) :
    storeInv (cancelBooking s bid c).1 := by
  unfold cancelBooking
  cases hf : s.bookings.find? (fun b => b.id == bid && b.customer == c) with
  | none => exact hs
  | some b =>
      intro y hy
      simp only at hy
      rcases mem_updateById hy with rfl | ⟨hmem, _⟩
      · refine ⟨?_, fun hc => BStatus.noConfusion hc,
          fun _ => Or.inr rfl, fun _ => Or.inr rfl⟩
        intro hc
        rcases hc with hc | hc
        · exact BStatus.noConfusion hc
        · exact BStatus.noConfusion hc
      · exact hs y hmem

/-- Rate preserves the maintained booking invariant: the saved booking is
completed, keeps the driver the ratable states already guarantee, and carries
whatever rating and review were submitted. -/
theorem storeInv_rate (s : Store) (bid c : Nat) (req : RateReq) (hs : storeInv s) :
    storeInv (rateBooking s bid c req).1 := by
  unfold rateBooking
  cases hf : s.bookings.find? (fun b => b.id == bid && b.customer == c) with
  | none => exact hs
  | some b =>
      cases hguard : (b.status == BStatus.pending || b.status == BStatus.cancelled) with
      | true =>
          simp only [hguard, if_true]
          exact hs
      | false =>
          simp only [hguard, Bool.false_eq_true, if_false]
          have hstat : b.status = BStatus.accepted ∨ b.status = BStatus.completed := by
            cases hb : b.status
            · rw [hb] at hguard
              simp at hguard
            · exact Or.inl rfl
            · exact Or.inr rfl
            · rw [hb] at hguard
              simp at hguard
          have hdrv : b.driver.isSome = true := (hs b (List.mem_of_find?_eq_some hf)).1 hstat
          have hsaved : storeInv { s with bookings := updateById s.bookings (rateSaved b req) } := by
            intro y hy
            simp only at hy
            rcases mem_updateById hy with rfl | ⟨hmem, _⟩
            · exact ⟨fun _ => hdrv, fun hc => BStatus.noConfusion hc,
                fun _ => Or.inl rfl, fun _ => Or.inl rfl⟩
            · exact hs y hmem
          cases hv : bookingValid (rateSaved b req) with
          | false =>
              simp only [hv, Bool.false_eq_true, if_false]
              exact hs
          | true =>
              simp only [hv, if_true]
              split
              · exact hsaved
              · intro y hy
                rw [updateDriver_bookings] at hy
                exact hsaved y hy

/-- C4 amended.  Every ledger operation preserves the invariant the handlers
actually maintain: accepted or completed bookings carry a driver, pending
bookings carry no driver, rating or review, and ratings and reviews appear
only on completed or cancelled bookings.  The spec wording with if and only if
fails because Cancel clears nothing and Rate accepts a missing rating, see the
counterexample. -/
theorem ledger_ops_preserve_invariant (s : Store) (hs : storeInv s) (ops : List Op) :
    storeInv (runOps s ops) := by
  induction ops generalizing s with
  | nil => exact hs
  | cons op rest ih =>
      have hstep : storeInv (applyOp s op) := by
        cases op with
        | create c r i t => exact storeInv_create s c r i t hs
        | claim b d => exact storeInv_accept s b d hs
        | cancel b c => exact storeInv_cancel s b c hs
        | rate b c r => exact storeInv_rate s b c r hs
      exact ih (applyOp s op) hstep

/-- Witness for the amended C4: the create, claim, cancel trace from the empty
store keeps the maintained invariant. -/
theorem ledger_ops_preserve_invariant_witness :
    storeInv (runOps emptyStore cancelAfterClaimOps) :=
  ledger_ops_preserve_invariant emptyStore (by decide) cancelAfterClaimOps

/-- C4 counterexample.  Create, claim by driver 10, then cancel: the cancel
succeeds on the accepted booking and leaves a cancelled booking that still
carries driverId 10, so the spec invariant driverId set iff status accepted or
completed is violated in a reachable state. -/
theorem cancel_after_claim_breaks_spec_invariant :
    ¬ specStoreInv (runOps emptyStore cancelAfterClaimOps) ∧
    ((runOps emptyStore cancelAfterClaimOps).bookings.map
      (fun b => (b.status, b.driver))) = [(BStatus.cancelled, some 10)] := by
  decide

end GroupG
